import Mathlib

/-!
Verification of the wordlist-curation tool `refine_wordlist.py`.

Python strings are modelled as `List Char` (`PyStr`); the Python methods `str.strip`,
`str.removesuffix`, `str.lower` and the `in` substring test are embedded as
`pyStrip`, `pyRemovesuffix`, `pyLower` and `pyIn`.  The interactive loop of
`main` is embedded as a fold of `processWord` over the source word list,
with the yes/no prompt modelled as a boolean oracle and the incremental
file appends recorded in the state.
-/

/-- Python strings, modelled as lists of characters. -/
abbrev PyStr := List Char

/-- The whitespace characters stripped by the Python method `str.strip`
(ASCII fragment: space, tab, newline, carriage return, vertical tab,
form feed). -/
def isPySpace (c : Char) : Bool :=
  c = ' ' || c = '\t' || c = '\n' || c = '\r' || c = '\x0b' || c = '\x0c'

/-- Python `s.strip()`: remove leading and trailing whitespace. -/
def pyStrip (s : PyStr) : PyStr :=
  ((s.dropWhile isPySpace).reverse.dropWhile isPySpace).reverse

/-- Python `s.removesuffix(suf)`: drop `suf` from the end of `s` when `s`
ends with it, otherwise return `s` unchanged. -/
def pyRemovesuffix (s suf : PyStr) : PyStr :=
  if suf.isSuffixOf s then s.take (s.length - suf.length) else s

/-- Python `s.lower()` on the basic latin fragment: lowercase each
character. -/
def pyLower (s : PyStr) : PyStr :=
  s.map Char.toLower

/-- Python `needle in hay` on strings: `needle` occurs as a contiguous
substring of `hay`. -/
def pyIn (needle hay : PyStr) : Bool :=
  match hay with
  | [] => needle.isEmpty
  | _ :: t => needle.isPrefixOf hay || pyIn needle t

/-- The apostrophe character, spelled via its code point. -/
def apostrophe : Char := Char.ofNat 39

/-- The possessive suffix literal of the source. -/
def possessive : PyStr := [apostrophe, 's']

/-- `findRelatedWords`, inner loop: for each entry of the wordlist, strip
it, keep it when its stripped form is longer than 2 characters and its
lowercased stripped form contains the (already stripped and lowercased)
target or is contained in it.  `target` here is the pre-processed target. -/
def findRelatedWordsGo (target : PyStr) : List PyStr → List PyStr
  | [] => []
  | w :: ws =>
    let word := pyStrip w
    if word.length > 2 then
      let lowerword := pyLower word
      if pyIn target lowerword || pyIn lowerword target then
        word :: findRelatedWordsGo target ws
      else
        findRelatedWordsGo target ws
    else
      findRelatedWordsGo target ws

/-- `findRelatedWords(target, wordlist)` from the source: words of
`wordlist` that may be related to `target` (substring in either direction
after stripping and lowercasing). -/
def findRelatedWords (target : PyStr) (wordlist : List PyStr) : List PyStr :=
  findRelatedWordsGo (pyLower (pyStrip target)) wordlist

/-- The in-memory and on-disk state of one run of `main`: the in-memory
accepted and rejected lists, the lines appended to the output (new words)
file and to the reject file so far, and the words for which a prompt was
issued. -/
structure CuratorState where
  accepted : List PyStr
  rejected : List PyStr
  outAppends : List PyStr
  rejAppends : List PyStr
  prompts : List PyStr
deriving DecidableEq

/-- The loop body of `main` for one source word `srcWord`, with the yes/no
prompt modelled by the oracle `prompt`.  A word already present in the
accepted or rejected list is skipped; a word whose stripped form, after
removing a possessive suffix, is longer than 3 characters is auto-accepted
without a prompt; otherwise the word is prompted and routed to the
accepted or rejected side according to the answer of the oracle. -/
def processWord (prompt : PyStr → Bool) (st : CuratorState) (srcWord : PyStr) :
    CuratorState :=
  if srcWord ∈ st.accepted ∨ srcWord ∈ st.rejected then st
  else if (pyRemovesuffix (pyStrip srcWord) possessive).length > 3 then
    { st with outAppends := st.outAppends ++ [srcWord],
              accepted := st.accepted ++ [srcWord] }
  else if prompt srcWord then
    { st with prompts := st.prompts ++ [srcWord],
              outAppends := st.outAppends ++ [srcWord],
              accepted := st.accepted ++ [srcWord] }
  else
    { st with prompts := st.prompts ++ [srcWord],
              rejAppends := st.rejAppends ++ [srcWord],
              rejected := st.rejected ++ [srcWord] }

/-- A full run of `main`: fold `processWord` over the source list, starting
from the loaded accepted and rejected histories with no appends and no
prompts yet. -/
def runMain (prompt : PyStr → Bool) (src : List PyStr)
    (accepted0 rejected0 : List PyStr) : CuratorState :=
  src.foldl (processWord prompt) ⟨accepted0, rejected0, [], [], []⟩

/-- The error raised by `open` on a missing file. -/
inductive FileError where
  | fileNotFound
deriving DecidableEq

/-- Opening a file for reading: the file system is modelled as
`Option (List PyStr)` (`none` when the file is absent), and opening an
absent file raises `FileNotFoundError`. -/
def openRead (file : Option (List PyStr)) : Except FileError (List PyStr) :=
  match file with
  | none => .error .fileNotFound
  | some lines => .ok lines

/-- `getRejectWords`: read the rejected-words file, returning the empty
list when the file is absent (the `FileNotFoundError` is caught). -/
def getRejectWords (rejFile : Option (List PyStr)) : List PyStr :=
  match openRead rejFile with
  | .ok lines => lines
  | .error .fileNotFound => []

/-- `getAcceptedWords`: read the accepted-words file, returning the empty
list when the file is absent (the `FileNotFoundError` is caught). -/
def getAcceptedWords (accFile : Option (List PyStr)) : List PyStr :=
  match openRead accFile with
  | .ok lines => lines
  | .error .fileNotFound => []

/-- A full run of `main` starting from the on-disk state: histories are
loaded through `getAcceptedWords` and `getRejectWords`. -/
def runFromFiles (prompt : PyStr → Bool) (src : List PyStr)
    (accFile rejFile : Option (List PyStr)) : CuratorState :=
  runMain prompt src (getAcceptedWords accFile) (getRejectWords rejFile)

example : pyStrip "  cat \n".data = "cat".data := by decide
example : pyRemovesuffix ("dog".data ++ possessive) possessive = "dog".data := by decide
example : pyLower "CaT".data = "cat".data := by decide
example : pyIn "cat".data "cats\n".data = true := by decide
example : pyIn "x".data "cats".data = false := by decide
example : pyIn [] "cats".data = true := by decide

/-! ## Helper lemmas -/

/-- The empty string is a substring of every string. -/
theorem pyIn_nil (l : PyStr) : pyIn [] l = true := by
  cases l with
  | nil => rfl
  | cons h t => simp [pyIn, List.isPrefixOf]

/-- The loop of `findRelatedWords` is the filter of the stripped wordlist
by the length bound and the two-sided substring test. -/
theorem findRelatedWordsGo_eq (tgt : PyStr) (wl : List PyStr) :
    findRelatedWordsGo tgt wl = (wl.map pyStrip).filter
      (fun w => decide (w.length > 2) && (pyIn tgt (pyLower w) || pyIn (pyLower w) tgt)) := by
  induction wl with
  | nil => rfl
  | cons w ws ih =>
    simp only [findRelatedWordsGo, List.map_cons, List.filter_cons]
    by_cases h1 : (pyStrip w).length > 2
    · by_cases h2 : (pyIn tgt (pyLower (pyStrip w)) || pyIn (pyLower (pyStrip w)) tgt) = true
      · simp [h1, h2, ih]
      · simp [h1, h2, ih]
    · simp [h1, ih]

/-- A word already present in a history list is skipped: the state is
unchanged. -/
theorem processWord_skip (p : PyStr → Bool) (st : CuratorState) (w : PyStr)
    (h : w ∈ st.accepted ∨ w ∈ st.rejected) : processWord p st w = st := by
  unfold processWord
  rw [if_pos h]

/-- After processing a word, that word is in the accepted or the rejected
list. -/
theorem processWord_mem_self (p : PyStr → Bool) (st : CuratorState) (w : PyStr) :
    w ∈ (processWord p st w).accepted ∨ w ∈ (processWord p st w).rejected := by
  unfold processWord
  by_cases h : w ∈ st.accepted ∨ w ∈ st.rejected
  · rw [if_pos h]; exact h
  · rw [if_neg h]
    by_cases h2 : (pyRemovesuffix (pyStrip w) possessive).length > 3
    · rw [if_pos h2]; left; simp
    · rw [if_neg h2]
      by_cases h3 : p w
      · simp [h3]
      · simp [h3]

/-- Membership in the accepted or rejected list survives processing
further words. -/
theorem processWord_mem_mono (p : PyStr → Bool) (st : CuratorState) (w v : PyStr)
    (h : w ∈ st.accepted ∨ w ∈ st.rejected) :
    w ∈ (processWord p st v).accepted ∨ w ∈ (processWord p st v).rejected := by
  unfold processWord
  by_cases hm : v ∈ st.accepted ∨ v ∈ st.rejected
  · rw [if_pos hm]; exact h
  · rw [if_neg hm]
    by_cases h2 : (pyRemovesuffix (pyStrip v) possessive).length > 3
    · rw [if_pos h2]
      rcases h with h | h
      · left; simp [List.mem_append, h]
      · right; simpa using h
    · rw [if_neg h2]
      by_cases h3 : p v
      · rcases h with h | h
        · left; simp [h3, List.mem_append, h]
        · right; simpa [h3] using h
      · rcases h with h | h
        · left; simpa [h3] using h
        · right; simp [h3, List.mem_append, h]

/-- `processWord_mem_mono`, extended over a fold of the loop body. -/
theorem foldl_mem_mono (p : PyStr → Bool) (w : PyStr) :
    ∀ (src : List PyStr) (st : CuratorState),
      (w ∈ st.accepted ∨ w ∈ st.rejected) →
      (w ∈ (src.foldl (processWord p) st).accepted ∨
        w ∈ (src.foldl (processWord p) st).rejected)
  | [], _, h => h
  | v :: vs, st, h => foldl_mem_mono p w vs _ (processWord_mem_mono p st w v h)

/-- Every word of the source list ends up in the accepted or the rejected
list after the run. -/
theorem foldl_mem_of_mem (p : PyStr → Bool) (w : PyStr) :
    ∀ (src : List PyStr) (st : CuratorState), w ∈ src →
      w ∈ (src.foldl (processWord p) st).accepted ∨
        w ∈ (src.foldl (processWord p) st).rejected := by
  intro src
  induction src with
  | nil => intro st h; cases h
  | cons v vs ih =>
    intro st h
    rw [List.foldl_cons]
    rcases List.mem_cons.mp h with rfl | h2
    · exact foldl_mem_mono p w vs _ (processWord_mem_self p st w)
    · exact ih _ h2

/-- When every source word is already classified at the start, the run is
a no-op. -/
theorem foldl_skip_all (p : PyStr → Bool) :
    ∀ (src : List PyStr) (st : CuratorState),
      (∀ w ∈ src, w ∈ st.accepted ∨ w ∈ st.rejected) →
      src.foldl (processWord p) st = st
  | [], _, _ => rfl
  | v :: vs, st, h => by
      rw [List.foldl_cons, processWord_skip p st v (h v (List.mem_cons_self v vs))]
      exact foldl_skip_all p vs st fun w hw => h w (List.mem_cons_of_mem v hw)

/-- The loop body keeps the in-memory lists in lockstep with the file
appends: in-memory accepted = loaded accepted ++ appended lines, and
likewise for rejected. -/
theorem processWord_tracks (p : PyStr → Bool) (A R : List PyStr) (st : CuratorState)
    (v : PyStr) (h1 : st.accepted = A ++ st.outAppends)
    (h2 : st.rejected = R ++ st.rejAppends) :
    (processWord p st v).accepted = A ++ (processWord p st v).outAppends ∧
    (processWord p st v).rejected = R ++ (processWord p st v).rejAppends := by
  unfold processWord
  by_cases hm : v ∈ st.accepted ∨ v ∈ st.rejected
  · rw [if_pos hm]; exact ⟨h1, h2⟩
  · rw [if_neg hm]
    by_cases hl : (pyRemovesuffix (pyStrip v) possessive).length > 3
    · rw [if_pos hl]
      exact ⟨by simp [h1], h2⟩
    · rw [if_neg hl]
      by_cases h3 : p v
      · simp only [h3, if_true]
        exact ⟨by simp [h1], h2⟩
      · simp only [h3, if_false]
        exact ⟨h1, by simp [h2]⟩

/-- `processWord_tracks`, extended over a fold of the loop body. -/
theorem foldl_tracks (p : PyStr → Bool) (A R : List PyStr) :
    ∀ (src : List PyStr) (st : CuratorState),
      st.accepted = A ++ st.outAppends → st.rejected = R ++ st.rejAppends →
      (src.foldl (processWord p) st).accepted
          = A ++ (src.foldl (processWord p) st).outAppends ∧
      (src.foldl (processWord p) st).rejected
          = R ++ (src.foldl (processWord p) st).rejAppends
  | [], _, h1, h2 => ⟨h1, h2⟩
  | v :: vs, st, h1, h2 => by
      rw [List.foldl_cons]
      obtain ⟨g1, g2⟩ := processWord_tracks p A R st v h1 h2
      exact foldl_tracks p A R vs _ g1 g2

/-- The loop body preserves disjointness of the accepted and rejected
lists. -/
theorem processWord_disjoint (p : PyStr → Bool) (st : CuratorState) (v : PyStr)
    (h : st.accepted.Disjoint st.rejected) :
    (processWord p st v).accepted.Disjoint (processWord p st v).rejected := by
  unfold processWord
  by_cases hm : v ∈ st.accepted ∨ v ∈ st.rejected
  · rw [if_pos hm]; exact h
  · rw [if_neg hm]
    push_neg at hm
    obtain ⟨hna, hnr⟩ := hm
    by_cases hl : (pyRemovesuffix (pyStrip v) possessive).length > 3
    · rw [if_pos hl]
      intro x hx hx2
      simp only [List.mem_append, List.mem_singleton] at hx
      rcases hx with hx | rfl
      · exact h hx hx2
      · exact hnr hx2
    · rw [if_neg hl]
      by_cases h3 : p v = true
      · rw [if_pos h3]
        intro x hx hx2
        simp only [List.mem_append, List.mem_singleton] at hx
        rcases hx with hx | rfl
        · exact h hx hx2
        · exact hnr hx2
      · rw [if_neg h3]
        intro x hx hx2
        simp only [List.mem_append, List.mem_singleton] at hx2
        rcases hx2 with hx2 | rfl
        · exact h hx hx2
        · exact hna hx

/-- `processWord_disjoint`, extended over a fold of the loop body. -/
theorem foldl_disjoint (p : PyStr → Bool) :
    ∀ (src : List PyStr) (st : CuratorState),
      st.accepted.Disjoint st.rejected →
      (src.foldl (processWord p) st).accepted.Disjoint
        (src.foldl (processWord p) st).rejected
  | [], _, h => h
  | v :: vs, st, h => by
      rw [List.foldl_cons]
      exact foldl_disjoint p vs _ (processWord_disjoint p st v h)

/-! ## Claim theorems -/

/-- Claim C1, counterexample to the claim as stated: the claim applies the
possessive-suffix removal before trimming, the code trims first.  For the
source word with raw text d o g apostrophe s newline, the length
test of the claim passes (the suffix removal does not fire on the untrimmed word, and
the trimmed word has length 5 > 3), yet the code does not auto-accept it:
it issues a prompt and, on a negative answer, writes nothing to the output
file. -/
theorem auto_accept_claim_cex :
    (pyStrip (pyRemovesuffix ("dog".data ++ [apostrophe, 's', '\n']) possessive)).length > 3 ∧
    (processWord (fun _ => false) ⟨[], [], [], [], []⟩
        ("dog".data ++ [apostrophe, 's', '\n'])).outAppends = [] ∧
    (processWord (fun _ => false) ⟨[], [], [], [], []⟩
        ("dog".data ++ [apostrophe, 's', '\n'])).prompts
      = ["dog".data ++ [apostrophe, 's', '\n']] := by decide

/-- Claim C1 (amended): a source word not present in the accepted or
rejected history whose trimmed form, after removing a trailing possessive
suffix, is longer than 3 characters is auto-accepted: it is appended to
the output file and to the in-memory accepted list, and no prompt is
issued (the prompts, rejected list and reject file are untouched). -/
theorem auto_accept_long (p : PyStr → Bool) (st : CuratorState) (w : PyStr)
    (hmem : ¬(w ∈ st.accepted ∨ w ∈ st.rejected))
    (hlen : (pyRemovesuffix (pyStrip w) possessive).length > 3) :
    processWord p st w =
      { st with outAppends := st.outAppends ++ [w],
                accepted := st.accepted ++ [w] } := by
  unfold processWord
  rw [if_neg hmem, if_pos hlen]

/-- Claim C1, witness for `auto_accept_long` at a concrete input. -/
theorem auto_accept_long_witness :
    ¬("cats\n".data ∈ ([] : List PyStr) ∨ "cats\n".data ∈ ([] : List PyStr)) ∧
    (pyRemovesuffix (pyStrip "cats\n".data) possessive).length > 3 ∧
    processWord (fun _ => false) ⟨[], [], [], [], []⟩ "cats\n".data
      = ⟨["cats\n".data], [], ["cats\n".data], [], []⟩ :=
  ⟨by decide, by decide,
    auto_accept_long (fun _ => false) ⟨[], [], [], [], []⟩ "cats\n".data
      (by decide) (by decide)⟩

/-- Claim C2: a second full run on the same source list, starting from the
accepted and rejected files as left by the first run, is a no-op: it
appends nothing to either file and prompts for nothing (the resulting
state is the initial state of the second run). -/
theorem run_idempotent (p1 p2 : PyStr → Bool) (src A R : List PyStr) :
    runMain p2 src (A ++ (runMain p1 src A R).outAppends)
        (R ++ (runMain p1 src A R).rejAppends)
      = ⟨A ++ (runMain p1 src A R).outAppends,
          R ++ (runMain p1 src A R).rejAppends, [], [], []⟩ := by
  have htr := foldl_tracks p1 A R src ⟨A, R, [], [], []⟩ (by simp) (by simp)
  unfold runMain
  apply foldl_skip_all
  intro w hw
  rcases foldl_mem_of_mem p1 w src ⟨A, R, [], [], []⟩ hw with hmem | hmem
  · left
    show w ∈ A ++ (src.foldl (processWord p1) ⟨A, R, [], [], []⟩).outAppends
    rw [← htr.1]
    exact hmem
  · right
    show w ∈ R ++ (src.foldl (processWord p1) ⟨A, R, [], [], []⟩).rejAppends
    rw [← htr.2]
    exact hmem

/-- Claim C3: when the loaded accepted and rejected histories are
disjoint, after a full run the final accepted and rejected lists have no
common element, and every source word lies in exactly one of the two. -/
theorem run_partition (p : PyStr → Bool) (src A R : List PyStr)
    (hdisj : A.Disjoint R) :
    (runMain p src A R).accepted.Disjoint (runMain p src A R).rejected ∧
    ∀ w ∈ src,
      (w ∈ (runMain p src A R).accepted ∧ w ∉ (runMain p src A R).rejected) ∨
      (w ∈ (runMain p src A R).rejected ∧ w ∉ (runMain p src A R).accepted) := by
  unfold runMain
  have hd := foldl_disjoint p src ⟨A, R, [], [], []⟩ hdisj
  refine ⟨hd, fun w hw => ?_⟩
  rcases foldl_mem_of_mem p w src ⟨A, R, [], [], []⟩ hw with hmem | hmem
  · exact Or.inl ⟨hmem, fun h2 => hd hmem h2⟩
  · exact Or.inr ⟨hmem, fun h2 => hd h2 hmem⟩

/-- Claim C3, witness for `run_partition` at a concrete input. -/
theorem run_partition_witness :
    (([] : List PyStr).Disjoint ([] : List PyStr)) ∧
    ((runMain (fun _ => true) ["cats\n".data, "cat\n".data] [] []).accepted.Disjoint
        (runMain (fun _ => true) ["cats\n".data, "cat\n".data] [] []).rejected ∧
      ∀ w ∈ ["cats\n".data, "cat\n".data],
        (w ∈ (runMain (fun _ => true) ["cats\n".data, "cat\n".data] [] []).accepted ∧
          w ∉ (runMain (fun _ => true) ["cats\n".data, "cat\n".data] [] []).rejected) ∨
        (w ∈ (runMain (fun _ => true) ["cats\n".data, "cat\n".data] [] []).rejected ∧
          w ∉ (runMain (fun _ => true) ["cats\n".data, "cat\n".data] [] []).accepted)) :=
  ⟨by simp [List.Disjoint],
    run_partition (fun _ => true) ["cats\n".data, "cat\n".data] [] []
      (by simp [List.Disjoint])⟩

/-- Claim C4, counterexample to the claim as stated: the claim says the
returned one-element list is the original word, but the code returns the
trimmed word.  For target cat and the word cats followed by a newline the
condition of the claim holds (the lowered target is a substring of the lowered
word and the trimmed word is longer than 2 characters), yet the returned
list holds the trimmed word, not the original one. -/
theorem findRelatedWords_singleton_cex :
    pyIn (pyLower "cat".data) (pyLower "cats\n".data) = true ∧
    (pyStrip "cats\n".data).length > 2 ∧
    findRelatedWords "cat".data ["cats\n".data] = ["cats".data] ∧
    findRelatedWords "cat".data ["cats\n".data] ≠ ["cats\n".data] := by decide

/-- Claim C4 (amended): `findRelatedWords target [w]` returns the
one-element list holding the trimmed `w` iff the lowered trimmed target is
a substring of the lowered trimmed `w` or the other way round, and the
trimmed `w` is longer than 2 characters. -/
theorem findRelatedWords_singleton_iff (t w : PyStr) :
    findRelatedWords t [w] = [pyStrip w] ↔
      ((pyIn (pyLower (pyStrip t)) (pyLower (pyStrip w)) = true ∨
        pyIn (pyLower (pyStrip w)) (pyLower (pyStrip t)) = true) ∧
        (pyStrip w).length > 2) := by
  unfold findRelatedWords
  rw [findRelatedWordsGo_eq]
  simp only [List.map_cons, List.map_nil, List.filter_cons, List.filter_nil]
  split
  · next hcond =>
    simp only [Bool.and_eq_true, decide_eq_true_iff, Bool.or_eq_true] at hcond
    simp only [eq_self_iff_true, true_iff]
    exact ⟨hcond.2, hcond.1⟩
  · next hcond =>
    simp only [Bool.and_eq_true, decide_eq_true_iff, Bool.or_eq_true, not_and] at hcond
    constructor
    · intro h
      exact absurd h (by simp)
    · intro h
      exact absurd h.1 (hcond h.2)

/-- Claim C5: a word already present in the loaded accepted or rejected
list is skipped with no action, and a repeated source word is likewise
skipped at its second occurrence, whatever words were processed in
between, because the first decision was recorded in memory. -/
theorem skip_invariant (p : PyStr → Bool) (st : CuratorState) (w : PyStr)
    (src : List PyStr) :
    ((w ∈ st.accepted ∨ w ∈ st.rejected) → processWord p st w = st) ∧
    processWord p (src.foldl (processWord p) (processWord p st w)) w
      = src.foldl (processWord p) (processWord p st w) := by
  refine ⟨processWord_skip p st w, ?_⟩
  apply processWord_skip
  exact foldl_mem_mono p w src _ (processWord_mem_self p st w)

/-- Claim C5, witness for `skip_invariant` at a concrete input. -/
theorem skip_invariant_witness :
    (("cat\n".data ∈ ["cat\n".data] ∨ "cat\n".data ∈ ([] : List PyStr)) →
      processWord (fun _ => true) ⟨["cat\n".data], [], [], [], []⟩ "cat\n".data
        = ⟨["cat\n".data], [], [], [], []⟩) ∧
    processWord (fun _ => true)
        (["dog\n".data].foldl (processWord (fun _ => true))
          (processWord (fun _ => true) ⟨["cat\n".data], [], [], [], []⟩
            "cat\n".data)) "cat\n".data
      = ["dog\n".data].foldl (processWord (fun _ => true))
          (processWord (fun _ => true) ⟨["cat\n".data], [], [], [], []⟩
            "cat\n".data) :=
  skip_invariant (fun _ => true) ⟨["cat\n".data], [], [], [], []⟩ "cat\n".data
    ["dog\n".data]

/-- Claim C6, counterexample to the claim as stated: the claim says the
function returns the qualifying entries of the wordlist themselves; the
code returns their trimmed forms.  The entry dogs-newline qualifies under
the criterion of the claim itself, so the claim predicts the output list holds
that entry verbatim, but the output holds the trimmed word instead. -/
theorem findRelatedWords_entries_cex :
    List.filter
        (fun w => decide ((pyStrip w).length > 2) &&
          (pyIn (pyLower (pyStrip w)) (pyLower (pyStrip "dog".data)) ||
            pyIn (pyLower (pyStrip "dog".data)) (pyLower (pyStrip w))))
        ["dogs\n".data] = ["dogs\n".data] ∧
    findRelatedWords "dog".data ["dogs\n".data] = ["dogs".data] ∧
    findRelatedWords "dog".data ["dogs\n".data] ≠ ["dogs\n".data] := by decide

/-- Claim C6 (amended): `findRelatedWords target wordlist` returns the
trimmed forms of exactly those entries of the wordlist whose trimmed form
is longer than 2 characters and whose lowered trimmed form contains the
lowered trimmed target as a substring or is contained in it, in the same
relative order as the entries appear in the wordlist. -/
theorem findRelatedWords_eq_filter (t : PyStr) (wl : List PyStr) :
    findRelatedWords t wl = (wl.map pyStrip).filter
      (fun w => decide (w.length > 2) &&
        (pyIn (pyLower (pyStrip t)) (pyLower w) ||
          pyIn (pyLower w) (pyLower (pyStrip t)))) :=
  findRelatedWordsGo_eq (pyLower (pyStrip t)) wl

/-- Claim C7: opening an absent history file raises `FileNotFoundError`,
`getAcceptedWords` and `getRejectWords` catch it and return the empty
list, and a run with both files absent is a run with empty histories. -/
theorem missing_files_recovered :
    getAcceptedWords none = [] ∧ getRejectWords none = [] ∧
    openRead (none : Option (List PyStr)) = Except.error FileError.fileNotFound ∧
    ∀ (p : PyStr → Bool) (src : List PyStr),
      runFromFiles p src none none = runMain p src [] [] :=
  ⟨rfl, rfl, rfl, fun _ _ => rfl⟩

/-- Claim C8: an undecided source word that is not auto-accepted is
prompted; it goes to the output file and the in-memory accepted list iff
the prompt answers yes, and to the reject file and the in-memory rejected
list iff the prompt answers no; exactly one of the two happens. -/
theorem prompt_routing (p : PyStr → Bool) (st : CuratorState) (w : PyStr)
    (hmem : ¬(w ∈ st.accepted ∨ w ∈ st.rejected))
    (hlen : ¬((pyRemovesuffix (pyStrip w) possessive).length > 3)) :
    (processWord p st w).prompts = st.prompts ++ [w] ∧
    (((processWord p st w).outAppends = st.outAppends ++ [w] ∧
      (processWord p st w).accepted = st.accepted ++ [w]) ↔ p w = true) ∧
    (((processWord p st w).rejAppends = st.rejAppends ++ [w] ∧
      (processWord p st w).rejected = st.rejected ++ [w]) ↔ p w = false) := by
  unfold processWord
  rw [if_neg hmem, if_neg hlen]
  by_cases h3 : p w = true
  · rw [if_pos h3]
    refine ⟨rfl, ?_, ?_⟩
    · simp [h3]
    · simp [h3]
  · rw [if_neg h3]
    rw [Bool.not_eq_true] at h3
    refine ⟨rfl, ?_, ?_⟩
    · simp [h3]
    · simp [h3]

/-- Claim C8, witness for `prompt_routing` at a concrete input. -/
theorem prompt_routing_witness :
    ¬("cat\n".data ∈ ([] : List PyStr) ∨ "cat\n".data ∈ ([] : List PyStr)) ∧
    ¬((pyRemovesuffix (pyStrip "cat\n".data) possessive).length > 3) ∧
    ((processWord (fun _ => true) ⟨[], [], [], [], []⟩ "cat\n".data).prompts
        = [] ++ ["cat\n".data] ∧
      (((processWord (fun _ => true) ⟨[], [], [], [], []⟩ "cat\n".data).outAppends
            = [] ++ ["cat\n".data] ∧
        (processWord (fun _ => true) ⟨[], [], [], [], []⟩ "cat\n".data).accepted
            = [] ++ ["cat\n".data]) ↔ (fun _ => true) "cat\n".data = true) ∧
      (((processWord (fun _ => true) ⟨[], [], [], [], []⟩ "cat\n".data).rejAppends
            = [] ++ ["cat\n".data] ∧
        (processWord (fun _ => true) ⟨[], [], [], [], []⟩ "cat\n".data).rejected
            = [] ++ ["cat\n".data]) ↔ (fun _ => true) "cat\n".data = false)) :=
  ⟨by decide, by decide,
    prompt_routing (fun _ => true) ⟨[], [], [], [], []⟩ "cat\n".data
      (by decide) (by decide)⟩

/-- Claim C9: the skip test is exact equality of raw strings: processing
leaves the state unchanged iff the identical raw word (same case, same
whitespace, same line terminator) is in the accepted or rejected list; in
particular, with the raw line cat-newline in the accepted history, the
word cat without the newline is not skipped and is prompted again. -/
theorem skip_exact_equality :
    (∀ (p : PyStr → Bool) (st : CuratorState) (w : PyStr),
        processWord p st w = st ↔ (w ∈ st.accepted ∨ w ∈ st.rejected)) ∧
    processWord (fun _ => true) ⟨["cat\n".data], [], [], [], []⟩ "cat".data
        ≠ ⟨["cat\n".data], [], [], [], []⟩ ∧
    (processWord (fun _ => true) ⟨["cat\n".data], [], [], [], []⟩ "cat".data).prompts
        = ["cat".data] := by
  refine ⟨fun p st w => ⟨fun heq => ?_, processWord_skip p st w⟩, by decide, by decide⟩
  by_contra hmem
  unfold processWord at heq
  rw [if_neg hmem] at heq
  by_cases h2 : (pyRemovesuffix (pyStrip w) possessive).length > 3
  · rw [if_pos h2] at heq
    have hlen := congrArg (fun s : CuratorState => s.outAppends.length) heq
    simp at hlen
  · rw [if_neg h2] at heq
    by_cases h3 : p w = true
    · rw [if_pos h3] at heq
      have hlen := congrArg (fun s : CuratorState => s.prompts.length) heq
      simp at hlen
    · rw [if_neg h3] at heq
      have hlen := congrArg (fun s : CuratorState => s.prompts.length) heq
      simp at hlen

/-- Claim C10, counterexample to the claim as stated: for a blank target
the claim predicts the output holds every qualifying entry of the
wordlist verbatim, but the code returns the trimmed forms: with the single
entry fish-newline the output is the trimmed word, not the entry. -/
theorem findRelatedWords_blank_cex :
    pyStrip " ".data = [] ∧
    (pyStrip "fish\n".data).length > 2 ∧
    findRelatedWords " ".data ["fish\n".data] = ["fish".data] ∧
    findRelatedWords " ".data ["fish\n".data] ≠ ["fish\n".data] := by decide

/-- Claim C10 (amended): for a target whose trimmed form is empty (a blank
or whitespace-only line), `findRelatedWords` returns the trimmed forms of
all wordlist entries whose trimmed form is longer than 2 characters,
because the empty lowered target is a substring of every word. -/
theorem findRelatedWords_blank (t : PyStr) (wl : List PyStr)
    (h : pyStrip t = []) :
    findRelatedWords t wl
      = (wl.map pyStrip).filter (fun w => decide (w.length > 2)) := by
  unfold findRelatedWords
  rw [h]
  show findRelatedWordsGo (pyLower []) wl = _
  rw [findRelatedWordsGo_eq]
  apply List.filter_congr
  intro w hw
  simp [pyLower, pyIn_nil]

/-- Claim C10, witness for `findRelatedWords_blank` at a concrete
input. -/
theorem findRelatedWords_blank_witness :
    pyStrip "  \n".data = [] ∧
    findRelatedWords "  \n".data ["fishy\n".data, "ab\n".data]
      = ((["fishy\n".data, "ab\n".data].map pyStrip).filter
          (fun w => decide (w.length > 2))) :=
  ⟨by decide, findRelatedWords_blank "  \n".data ["fishy\n".data, "ab\n".data] (by decide)⟩
